import Mathlib

/-!
Verification development for the PyTorch quickstart notebook
(0-quickstart.ipynb).  The notebook defines a four-layer fully connected
classifier over FashionMNIST, trains it with SGD for 20 epochs, evaluates
it, and saves/loads its state dictionary.

Shallow embedding conventions: real-valued tensors are modelled with exact
rationals; a vector is a list of rationals and a matrix is a list of rows.
Library operations of torch that the notebook calls (nn.Linear, nn.ReLU,
nn.Sequential, DataLoader batching, torch.save / torch.load, autograd)
are embedded from their documented semantics, since the library itself is
outside the repository; everything else is translated from the notebook
cells.
-/

namespace Quickstart

/-- A tensor row: one vector of rational entries. -/
abbrev Vec := List ℚ

/-- A matrix: a list of rows. -/
abbrev Mat := List Vec

/-- One input sample, a 28 by 28 greyscale image, as a list of rows. -/
abbrev Image := List (List ℚ)

/-- A class label, an index between 0 and 9 for FashionMNIST. -/
abbrev Label := Nat

/-- One batch produced by the DataLoader: a list of (image, label) pairs. -/
abbrev Batch := List (Image × Label)

/-- nn.ReLU applied elementwise to a vector. -/
def relu (v : Vec) : Vec := v.map (fun x => max x 0)

/-- Dot product of two rows (truncating at the shorter one, as zipWith). -/
def dot (a b : Vec) : ℚ := (List.zipWith (fun x y => x * y) a b).sum

/-- nn.Linear: a weight matrix together with a bias vector. -/
structure Linear where
  weight : Mat
  bias : Vec
  deriving DecidableEq

/-- Applying a Linear layer: each output entry is the dot product of a
weight row with the input plus the corresponding bias entry. -/
def Linear.run (L : Linear) (v : Vec) : Vec :=
  List.zipWith (fun row b => dot row v + b) L.weight L.bias

/-- One element of the nn.Sequential stack of the notebook model: either a
Linear layer or a ReLU. -/
inductive Layer where
  | linear (L : Linear)
  | reluLayer
  deriving DecidableEq

/-- Running one layer on a vector. -/
def Layer.run : Layer → Vec → Vec
  | .linear L, v => L.run v
  | .reluLayer, v => relu v

/-- nn.Sequential: the layers are applied in order. -/
def seqForward (layers : List Layer) (v : Vec) : Vec :=
  layers.foldl (fun acc L => L.run acc) v

/-- The NeuralNetwork module of the notebook: four Linear layers
(784 to 1024, 1024 to 1024, 1024 to 512, 512 to 10) and the training-mode
flag every nn.Module carries (toggled by model.train and model.eval). -/
structure NeuralNetwork where
  l1 : Linear
  l2 : Linear
  l3 : Linear
  l4 : Linear
  training : Bool

/-- The linear_relu_stack of the notebook: Linear, ReLU, Linear, ReLU,
Linear, ReLU, Linear. -/
def NeuralNetwork.linear_relu_stack (m : NeuralNetwork) : List Layer :=
  [.linear m.l1, .reluLayer, .linear m.l2, .reluLayer,
   .linear m.l3, .reluLayer, .linear m.l4]

/-- nn.Flatten on one sample: concatenate the image rows into one vector. -/
def flattenImage (x : Image) : Vec := x.flatten

/-- The forward pass of the notebook model: flatten, then the sequential
stack. -/
def NeuralNetwork.forward (m : NeuralNetwork) (x : Image) : Vec :=
  seqForward m.linear_relu_stack (flattenImage x)

/-- Dimension discipline of one Linear layer: outDim rows, each of length
inDim, and a bias of length outDim. -/
def Linear.hasDims (L : Linear) (inDim outDim : Nat) : Prop :=
  L.weight.length = outDim ∧ (∀ row ∈ L.weight, row.length = inDim) ∧
    L.bias.length = outDim

/-- The dimensions declared in the notebook constructor:
784 to 1024, 1024 to 1024, 1024 to 512, 512 to 10. -/
def NeuralNetwork.wf (m : NeuralNetwork) : Prop :=
  m.l1.hasDims 784 1024 ∧ m.l2.hasDims 1024 1024 ∧
    m.l3.hasDims 1024 512 ∧ m.l4.hasDims 512 10

/-- A 28 by 28 image: 28 rows of length 28. -/
def imageWf (x : Image) : Prop :=
  x.length = 28 ∧ ∀ row ∈ x, row.length = 28

/-- A Linear layer with all entries zero, used as a concrete well-formed
instantiation. -/
def zeroLinear (inDim outDim : Nat) : Linear :=
  ⟨List.replicate outDim (List.replicate inDim 0), List.replicate outDim 0⟩

/-- A concrete NeuralNetwork with the dimensions of the notebook and all
parameters zero. -/
def zeroNetwork : NeuralNetwork :=
  ⟨zeroLinear 784 1024, zeroLinear 1024 1024, zeroLinear 1024 512,
   zeroLinear 512 10, true⟩

/-- A concrete all-zero 28 by 28 image. -/
def zeroImage : Image := List.replicate 28 (List.replicate 28 0)

lemma zeroLinear_hasDims (i o : Nat) : (zeroLinear i o).hasDims i o := by
  refine ⟨by simp [zeroLinear], ?_, by simp [zeroLinear]⟩
  intro row hrow
  simp only [zeroLinear, List.mem_replicate] at hrow
  simp [hrow.2]

lemma zeroNetwork_wf : zeroNetwork.wf :=
  ⟨zeroLinear_hasDims _ _, zeroLinear_hasDims _ _,
   zeroLinear_hasDims _ _, zeroLinear_hasDims _ _⟩

lemma zeroImage_wf : imageWf zeroImage := by
  refine ⟨by simp [zeroImage], ?_⟩
  intro row hrow
  simp only [zeroImage, List.mem_replicate] at hrow
  simp [hrow.2]

lemma Linear.length_run (L : Linear) (v : Vec) :
    (L.run v).length = min L.weight.length L.bias.length := by
  simp [Linear.run]

lemma length_flattenImage (x : Image) (hx : imageWf x) :
    (flattenImage x).length = 784 := by
  have hmap : x.map List.length = List.replicate 28 28 := by
    refine List.eq_replicate_iff.2 ⟨by simp [hx.1], ?_⟩
    intro b hb
    rcases List.mem_map.1 hb with ⟨row, hrow, hb'⟩
    exact hb' ▸ hx.2 row hrow
  simp [flattenImage, List.length_flatten, hmap]

/-- torch.argmax over a vector of logits: the index of the (first)
largest entry.  The accumulator keeps the index of the running best. -/
def argmaxAux : Vec → Nat → Nat → ℚ → Nat
  | [], _, best, _ => best
  | x :: xs, i, best, bv =>
      if bv < x then argmaxAux xs (i + 1) i x else argmaxAux xs (i + 1) best bv

/-- torch.argmax of a vector (0 on the empty vector). -/
def argmax : Vec → Nat
  | [] => 0
  | x :: xs => argmaxAux xs 1 0 x

lemma argmaxAux_lt :
    ∀ (xs : Vec) (i best : Nat) (bv : ℚ), best < i →
      argmaxAux xs i best bv < i + xs.length := by
  intro xs
  induction xs with
  | nil => intro i best bv h; simpa using h
  | cons x xs ih =>
      intro i best bv h
      by_cases hx : bv < x
      · simp only [argmaxAux, if_pos hx]
        have := ih (i + 1) i x (Nat.lt_succ_self i)
        simpa [Nat.add_comm, Nat.add_left_comm, Nat.add_assoc] using this
      · simp only [argmaxAux, if_neg hx]
        have := ih (i + 1) best bv (Nat.lt_succ_of_lt h)
        simpa [Nat.add_comm, Nat.add_left_comm, Nat.add_assoc] using this

lemma argmax_lt_length (v : Vec) (hv : v ≠ []) : argmax v < v.length := by
  cases v with
  | nil => exact absurd rfl hv
  | cons x xs =>
      have := argmaxAux_lt xs 1 0 x Nat.one_pos
      simpa [argmax, Nat.add_comm] using this

/-- The ten FashionMNIST class names of the final notebook cell. -/
def classes : List String :=
  ["T-shirt/top", "Trouser", "Pullover", "Dress", "Coat",
   "Sandal", "Shirt", "Sneaker", "Bag", "Ankle boot"]

/-- Python list indexing: in bounds gives the element, out of bounds is a
runtime failure, modelled as none. -/
def pyIndex (l : List String) (i : Nat) : Option String := l[i]?

/-- The final prediction cell: model.eval, run the model on the first test
sample under no_grad, look up classes at the argmax of the logits and at
the true label, and return the (predicted, actual) pair together with the
model object after the cell.  A failed lookup is none. -/
def predictionCell (m : NeuralNetwork) (x : Image) (y : Label) :
    Option (String × String) × NeuralNetwork :=
  let m1 : NeuralNetwork := { m with training := false }
  let pred := m1.forward x
  (do
    let predicted ← pyIndex classes (argmax pred)
    let actual ← pyIndex classes y
    pure (predicted, actual), m1)

/-- A serialized tensor in a state dictionary: a matrix or a vector. -/
inductive Tensor where
  | mat (w : Mat)
  | vec (v : Vec)
  deriving DecidableEq

/-- A state dictionary: named tensors. -/
abbrev StateDict := List (String × Tensor)

/-- model.state_dict: the weights and biases of the four Linear layers,
keyed by their position in the sequential stack, and nothing else. -/
def NeuralNetwork.state_dict (m : NeuralNetwork) : StateDict :=
  [("linear_relu_stack.0.weight", .mat m.l1.weight),
   ("linear_relu_stack.0.bias", .vec m.l1.bias),
   ("linear_relu_stack.2.weight", .mat m.l2.weight),
   ("linear_relu_stack.2.bias", .vec m.l2.bias),
   ("linear_relu_stack.4.weight", .mat m.l3.weight),
   ("linear_relu_stack.4.bias", .vec m.l3.bias),
   ("linear_relu_stack.6.weight", .mat m.l4.weight),
   ("linear_relu_stack.6.bias", .vec m.l4.bias)]

/-- The contents of disk after the notebook runs: named files, most recent
write first. -/
abbrev FileSystem := List (String × StateDict)

/-- Modelled from the spec: torch.save serializes one object into one
file; nothing else is touched.  The file content deserializes back to the
saved state dictionary. -/
def torch_save (obj : StateDict) (path : String) (fs : FileSystem) :
    FileSystem := (path, obj) :: fs

/-- Modelled from the spec: torch.load reads one file back into the state
dictionary it holds. -/
def torch_load (path : String) (fs : FileSystem) : Option StateDict :=
  List.lookup path fs

/-- The path string of the save cell.  Python does not treat a backslash
followed by m as an escape, so the literal is dot backslash model. -/
def modelPath : String := ".\\model"

/-- The save cell: one torch.save call on model.state_dict, returning the
file system after the write and the (untouched) model. -/
def saveCell (m : NeuralNetwork) (fs : FileSystem) :
    FileSystem × NeuralNetwork :=
  (torch_save m.state_dict modelPath fs, m)

/-- Lookup of a matrix-valued entry of a state dictionary. -/
def getMat (sd : StateDict) (k : String) : Option Mat :=
  match List.lookup k sd with
  | some (.mat w) => some w
  | _ => none

/-- Lookup of a vector-valued entry of a state dictionary. -/
def getVec (sd : StateDict) (k : String) : Option Vec :=
  match List.lookup k sd with
  | some (.vec v) => some v
  | _ => none

/-- model.load_state_dict with strict matching: every parameter of the
four Linear layers must be found in the dictionary, and the parameters of
the receiving model are overwritten with the loaded tensors. -/
def NeuralNetwork.load_state_dict (f : NeuralNetwork) (sd : StateDict) :
    Option NeuralNetwork := do
  let w1 ← getMat sd "linear_relu_stack.0.weight"
  let b1 ← getVec sd "linear_relu_stack.0.bias"
  let w2 ← getMat sd "linear_relu_stack.2.weight"
  let b2 ← getVec sd "linear_relu_stack.2.bias"
  let w3 ← getMat sd "linear_relu_stack.4.weight"
  let b3 ← getVec sd "linear_relu_stack.4.bias"
  let w4 ← getMat sd "linear_relu_stack.6.weight"
  let b4 ← getVec sd "linear_relu_stack.6.bias"
  pure { l1 := ⟨w1, b1⟩, l2 := ⟨w2, b2⟩, l3 := ⟨w3, b3⟩,
         l4 := ⟨w4, b4⟩, training := f.training }

/-- Modelled from the spec: DataLoader batching with drop_last false cuts
the dataset into consecutive chunks of at most the batch size.  The fuel
argument (instantiated with the list length) makes the recursion
structural. -/
def chunksAux (k : Nat) : Nat → List α → List (List α)
  | _, [] => []
  | 0, _ :: _ => []
  | fuel + 1, x :: xs => (x :: xs).take k :: chunksAux k fuel ((x :: xs).drop k)

/-- The batches a DataLoader yields over a dataset, in order. -/
def chunks (k : Nat) (l : List α) : List (List α) :=
  chunksAux k l.length l

lemma length_drop_cons_le (k : Nat) (hk : 0 < k) (x : α) (xs : List α) :
    ((x :: xs).drop k).length ≤ xs.length := by
  simp only [List.length_drop, List.length_cons]
  omega

lemma chunksAux_congr (k : Nat) (hk : 0 < k) :
    ∀ (f1 : Nat) (l : List α) (f2 : Nat), l.length ≤ f1 → l.length ≤ f2 →
      chunksAux k f1 l = chunksAux k f2 l := by
  intro f1
  induction f1 with
  | zero =>
      intro l f2 h1 _
      have : l = [] := List.eq_nil_of_length_eq_zero (Nat.le_zero.1 h1)
      subst this
      cases f2 <;> rfl
  | succ f ih =>
      intro l f2 h1 h2
      cases l with
      | nil => cases f2 <;> rfl
      | cons x xs =>
          cases f2 with
          | zero => exact absurd h2 (by simp)
          | succ f2' =>
              simp only [chunksAux]
              refine congrArg _ (ih _ _ ?_ ?_)
              · exact le_trans (length_drop_cons_le k hk x xs)
                  (Nat.succ_le_succ_iff.1 h1)
              · exact le_trans (length_drop_cons_le k hk x xs)
                  (Nat.succ_le_succ_iff.1 h2)

lemma chunks_nil (k : Nat) : chunks k ([] : List α) = [] := rfl

lemma chunks_cons (k : Nat) (hk : 0 < k) (l : List α) (hl : l ≠ []) :
    chunks k l = l.take k :: chunks k (l.drop k) := by
  cases l with
  | nil => exact absurd rfl hl
  | cons x xs =>
      simp only [chunks, List.length_cons, chunksAux]
      refine congrArg _ (chunksAux_congr k hk _ _ _ ?_ le_rfl)
      exact length_drop_cons_le k hk x xs

lemma chunksAux_flatten (k : Nat) (hk : 0 < k) :
    ∀ (fuel : Nat) (l : List α), l.length ≤ fuel →
      (chunksAux k fuel l).flatten = l := by
  intro fuel
  induction fuel with
  | zero =>
      intro l h
      have : l = [] := List.eq_nil_of_length_eq_zero (Nat.le_zero.1 h)
      subst this
      rfl
  | succ f ih =>
      intro l h
      cases l with
      | nil => rfl
      | cons x xs =>
          simp only [chunksAux, List.flatten_cons]
          rw [ih _ (le_trans (length_drop_cons_le k hk x xs)
                (Nat.succ_le_succ_iff.1 h))]
          exact List.take_append_drop k (x :: xs)

lemma chunks_flatten (k : Nat) (hk : 0 < k) (l : List α) :
    (chunks k l).flatten = l :=
  chunksAux_flatten k hk l.length l le_rfl

lemma chunksAux_map_length (k : Nat) (hk : 0 < k) :
    ∀ (fuel : Nat) (l : List α), l.length ≤ fuel →
      (chunksAux k fuel l).map List.length =
        List.replicate (l.length / k) k ++
          (if l.length % k = 0 then [] else [l.length % k]) := by
  intro fuel
  induction fuel with
  | zero =>
      intro l h
      have : l = [] := List.eq_nil_of_length_eq_zero (Nat.le_zero.1 h)
      subst this
      simp [chunksAux]
  | succ f ih =>
      intro l h
      cases l with
      | nil => simp [chunksAux]
      | cons x xs =>
          simp only [chunksAux, List.map_cons]
          rw [ih _ (le_trans (length_drop_cons_le k hk x xs)
                (Nat.succ_le_succ_iff.1 h))]
          by_cases hbig : k ≤ (x :: xs).length
          · have htake : ((x :: xs).take k).length = k := by
              simp only [List.length_take, List.length_cons]
              simp only [List.length_cons] at hbig
              omega
            have hlen : ((x :: xs).drop k).length = (x :: xs).length - k := by
              simp [List.length_drop]
            rw [htake, hlen]
            have hdiv : (x :: xs).length / k = ((x :: xs).length - k) / k + 1 :=
              Nat.div_eq_sub_div hk hbig
            have hmod : ((x :: xs).length - k) % k = (x :: xs).length % k :=
              (Nat.mod_eq_sub_mod hbig).symm
            rw [hdiv, hmod, List.replicate_succ, List.cons_append]
          · push_neg at hbig
            have htake : (x :: xs).take k = x :: xs :=
              List.take_of_length_le (Nat.le_of_lt hbig)
            have hdropnil : (x :: xs).drop k = [] :=
              List.drop_eq_nil_of_le (Nat.le_of_lt hbig)
            have hdivz : (x :: xs).length / k = 0 := Nat.div_eq_of_lt hbig
            have hmodz : (x :: xs).length % k = (x :: xs).length :=
              Nat.mod_eq_of_lt hbig
            rw [htake, hdropnil]
            simp only [List.length_cons, List.length_nil] at hdivz hmodz ⊢
            simp [hdivz, hmodz]

lemma chunks_map_length (k : Nat) (hk : 0 < k) (l : List α) :
    (chunks k l).map List.length =
      List.replicate (l.length / k) k ++
        (if l.length % k = 0 then [] else [l.length % k]) :=
  chunksAux_map_length k hk l.length l le_rfl

/-- A DataLoader as the notebook constructs it: the wrapped dataset and
the batch size. -/
structure DataLoader where
  dataset : List (Image × Label)
  batch_size : Nat

/-- The sequence of batches the loader yields in one pass. -/
def DataLoader.batches (dl : DataLoader) : List Batch :=
  chunks dl.batch_size dl.dataset

/-- The batch size of the notebook. -/
def batch_size : Nat := 64

/-- Modelled from the spec: nn.CrossEntropyLoss on one sample, kept
abstract because its log-sum-exp arithmetic lives in the library.  It maps
a logit vector and the true label to a rational loss value. -/
abbrev LossFn := Vec → Label → ℚ

/-- Whether the model predicts the label of one sample: the argmax of the
logits equals the label, as in pred.argmax compared with y. -/
def isCorrect (m : NeuralNetwork) (xy : Image × Label) : Bool :=
  argmax (m.forward xy.1) = xy.2

/-- How many samples of a batch the model classifies correctly. -/
def batchCorrect (m : NeuralNetwork) (b : Batch) : Nat :=
  (b.filter (isCorrect m)).length

/-- The sum of the per-sample losses over a batch. -/
def sampleLossSum (lossFn : LossFn) (m : NeuralNetwork) (b : Batch) : ℚ :=
  (b.map (fun xy => lossFn (m.forward xy.1) xy.2)).sum

/-- The value loss_fn(pred, y) returns on a batch: nn.CrossEntropyLoss
with its default mean reduction averages the per-sample losses. -/
def batchMeanLoss (lossFn : LossFn) (m : NeuralNetwork) (b : Batch) : ℚ :=
  sampleLossSum lossFn m b / b.length

/-- The two numbers the test function prints. -/
structure TestOutcome where
  accuracy : ℚ
  avgLoss : ℚ
  deriving DecidableEq

/-- The test function of the notebook: size is the dataset length,
num_batches the loader length; model.eval is called; per batch the mean
loss is added to test_loss and the number of argmax matches to correct;
finally test_loss is divided by num_batches and correct by size.  Returns
the printed metrics and the model object after the call. -/
def test (lossFn : LossFn) (dl : DataLoader) (m : NeuralNetwork) :
    TestOutcome × NeuralNetwork :=
  let size := dl.dataset.length
  let num_batches := dl.batches.length
  let m1 : NeuralNetwork := { m with training := false }
  let acc := dl.batches.foldl
    (fun (tc : ℚ × ℚ) b =>
      (tc.1 + batchMeanLoss lossFn m1 b, tc.2 + (batchCorrect m1 b : ℚ)))
    (0, 0)
  ({ accuracy := acc.2 / size, avgLoss := acc.1 / num_batches }, m1)

/-- The gradients of the parameters of the four Linear layers, one
(weight gradient, bias gradient) pair per layer, shaped like the layers. -/
structure ParamGrads where
  g1 : Linear
  g2 : Linear
  g3 : Linear
  g4 : Linear

/-- A gradient holder of the same shape as a layer, all entries zero. -/
def Linear.zeroLike (L : Linear) : Linear :=
  ⟨L.weight.map (fun row => row.map (fun _ => 0)), L.bias.map (fun _ => 0)⟩

/-- Gradients of the whole model, all zero, as after zero_grad. -/
def NeuralNetwork.zeroGrads (m : NeuralNetwork) : ParamGrads :=
  ⟨m.l1.zeroLike, m.l2.zeroLike, m.l3.zeroLike, m.l4.zeroLike⟩

/-- Entrywise sum of two gradient holders (gradient accumulation). -/
def Linear.addG (a b : Linear) : Linear :=
  ⟨List.zipWith (List.zipWith (fun x y => x + y)) a.weight b.weight,
   List.zipWith (fun x y => x + y) a.bias b.bias⟩

/-- Accumulating gradients over the whole model, as loss.backward does. -/
def ParamGrads.add (a b : ParamGrads) : ParamGrads :=
  ⟨a.g1.addG b.g1, a.g2.addG b.g2, a.g3.addG b.g3, a.g4.addG b.g4⟩

/-- The optimizer state of torch.optim.SGD as the notebook uses it: the
constant learning rate and the gradient buffers of the parameters. -/
structure SGD where
  lr : ℚ
  grads : ParamGrads

/-- torch.optim.SGD(model.parameters(), lr=1e-3): learning rate one
thousandth, gradient buffers starting at zero. -/
def SGD.init (m : NeuralNetwork) : SGD :=
  ⟨1 / 1000, m.zeroGrads⟩

/-- One vanilla SGD update of one layer: every weight and bias entry p
becomes p minus lr times its gradient entry. -/
def Linear.sgdStep (lr : ℚ) (p g : Linear) : Linear :=
  ⟨List.zipWith (List.zipWith (fun a d => a - lr * d)) p.weight g.weight,
   List.zipWith (fun a d => a - lr * d) p.bias g.bias⟩

/-- optimizer.step: the SGD update applied to all four layers. -/
def optimizerStep (lr : ℚ) (m : NeuralNetwork) (g : ParamGrads) :
    NeuralNetwork :=
  { m with
    l1 := Linear.sgdStep lr m.l1 g.g1
    l2 := Linear.sgdStep lr m.l2 g.g2
    l3 := Linear.sgdStep lr m.l3 g.g3
    l4 := Linear.sgdStep lr m.l4 g.g4 }

/-- Modelled from the spec: autograd.  loss.backward computes the
gradient of the batch cross-entropy loss with respect to every model
parameter; the function from the current parameters and the batch to
those gradients is kept abstract. -/
abbrev GradFn := NeuralNetwork → Batch → ParamGrads

/-- One observable action of the training run: an optimizer step with the
learning rate it used and the batch it consumed, or one test pass. -/
inductive RunEvent where
  | step (lr : ℚ) (b : Batch)
  | testPass

/-- The mutable state the notebook cells thread: the model, the
optimizer, and (for the verification) the log of observable actions. -/
structure RunState where
  model : NeuralNetwork
  opt : SGD
  log : List RunEvent

/-- The body of the loop in train, for one batch: compute predictions and
the loss, loss.backward (accumulate gradients), optimizer.step (update
every parameter), optimizer.zero_grad (reset gradients to zero).  The
print of the loss has no effect on the state. -/
def trainStep (gradFn : GradFn) (s : RunState) (b : Batch) : RunState :=
  let gAccum := s.opt.grads.add (gradFn s.model b)
  let m2 := optimizerStep s.opt.lr s.model gAccum
  { model := m2,
    opt := { s.opt with grads := m2.zeroGrads },
    log := s.log ++ [.step s.opt.lr b] }

/-- The train function of the notebook: model.train, then one trainStep
per batch of the loader, in order. -/
def train (gradFn : GradFn) (dl : DataLoader) (s : RunState) : RunState :=
  dl.batches.foldl (trainStep gradFn)
    { s with model := { s.model with training := true } }

/-- The test call inside the epoch loop: runs test, which only prints;
the event is logged and the model object is the one test returns. -/
def testPhase (lossFn : LossFn) (dl : DataLoader) (s : RunState) : RunState :=
  { model := (test lossFn dl s.model).2, opt := s.opt,
    log := s.log ++ [.testPass] }

/-- The number of epochs of the notebook. -/
def epochs : Nat := 20

/-- The epoch loop: for t in range(epochs), train over the train loader
then test over the test loader. -/
def runTraining (gradFn : GradFn) (lossFn : LossFn)
    (trainDL testDL : DataLoader) (s : RunState) : RunState :=
  (List.range epochs).foldl
    (fun st _ => testPhase lossFn testDL (train gradFn trainDL st)) s

/-- The state after the initialization cells: the freshly built model,
the freshly built optimizer, nothing logged yet. -/
def initState (m : NeuralNetwork) : RunState :=
  { model := m, opt := SGD.init m, log := [] }

lemma foldl_pair_sum (f g : Batch → ℚ) :
    ∀ (l : List Batch) (a c : ℚ),
      l.foldl (fun tc b => (tc.1 + f b, tc.2 + g b)) (a, c) =
        (a + (l.map f).sum, c + (l.map g).sum) := by
  intro l
  induction l with
  | nil => intro a c; simp
  | cons b bs ih =>
      intro a c
      rw [List.foldl_cons, ih]
      simp [add_assoc]

lemma length_filter_flatten {α : Type} (p : α → Bool) :
    ∀ L : List (List α),
      ((L.flatten).filter p).length =
        (L.map (fun b => (b.filter p).length)).sum := by
  intro L
  induction L with
  | nil => simp
  | cons b bs ih => simp [List.filter_append, ih, Function.comp_def]

lemma sampleLossSum_flatten (lossFn : LossFn) (m : NeuralNetwork) :
    ∀ L : List Batch,
      sampleLossSum lossFn m L.flatten =
        (L.map (sampleLossSum lossFn m)).sum := by
  intro L
  induction L with
  | nil => simp [sampleLossSum]
  | cons b bs ih => simp [sampleLossSum, List.map_append, List.sum_append] at ih ⊢; rw [ih]

lemma sum_map_eq_mul (L : List Batch) (f g : Batch → ℚ) (k : ℚ)
    (h : ∀ c ∈ L, f c = k * g c) :
    (L.map f).sum = k * (L.map g).sum := by
  induction L with
  | nil => simp
  | cons b bs ih =>
      simp only [List.map_cons, List.sum_cons]
      rw [h b (List.mem_cons_self b bs), ih (fun c hc => h c (List.mem_cons_of_mem b hc)), mul_add]

/-- The closed form of the loss metric of test: the sum of the per-batch
mean losses divided by the number of batches. -/
lemma test_avgLoss_eq (lossFn : LossFn) (dl : DataLoader) (m : NeuralNetwork) :
    (test lossFn dl m).1.avgLoss =
      ((dl.batches.map (batchMeanLoss lossFn m)).sum : ℚ) /
        dl.batches.length := by
  have h : (test lossFn dl m).1.avgLoss =
      (dl.batches.foldl
        (fun (tc : ℚ × ℚ) b =>
          (tc.1 + batchMeanLoss lossFn m b, tc.2 + (batchCorrect m b : ℚ)))
        (0, 0)).1 / dl.batches.length := rfl
  rw [h, foldl_pair_sum]
  simp

/-- The closed form of the accuracy metric of test: the number of
correctly classified dataset samples divided by the dataset size. -/
lemma test_accuracy_eq (lossFn : LossFn) (dl : DataLoader) (m : NeuralNetwork)
    (hk : 0 < dl.batch_size) :
    (test lossFn dl m).1.accuracy =
      ((dl.dataset.filter (isCorrect m)).length : ℚ) / dl.dataset.length := by
  have h : (test lossFn dl m).1.accuracy =
      (dl.batches.foldl
        (fun (tc : ℚ × ℚ) b =>
          (tc.1 + batchMeanLoss lossFn m b, tc.2 + (batchCorrect m b : ℚ)))
        (0, 0)).2 / dl.dataset.length := rfl
  rw [h, foldl_pair_sum]
  have hc : (dl.batches.map (fun b => ((batchCorrect m b : Nat) : ℚ))).sum =
      ((dl.dataset.filter (isCorrect m)).length : ℚ) := by
    have h1 : (dl.batches.map (fun b => (batchCorrect m b : Nat))).sum =
        (dl.dataset.filter (isCorrect m)).length := by
      have := length_filter_flatten (isCorrect m) dl.batches
      simp only [DataLoader.batches] at this
      rw [chunks_flatten dl.batch_size hk dl.dataset] at this
      exact (this.symm.trans (by rfl))
    have h2 : (dl.batches.map (fun b => ((batchCorrect m b : Nat) : ℚ))).sum =
        (((dl.batches.map (fun b => batchCorrect m b)).sum : Nat) : ℚ) := by
      rw [Nat.cast_list_sum, List.map_map]
      rfl
    rw [h2, h1]
  rw [hc]
  simp

/-- Claim C5: test reports accuracy equal to the number of test samples
whose argmax prediction equals the true label divided by the test-set
size, and average loss equal to the sum of the per-batch losses divided
by the number of batches. -/
theorem test_metrics (lossFn : LossFn) (dl : DataLoader) (m : NeuralNetwork)
    (hk : 0 < dl.batch_size) :
    (test lossFn dl m).1.accuracy =
      ((dl.dataset.filter (isCorrect m)).length : ℚ) / dl.dataset.length ∧
    (test lossFn dl m).1.avgLoss =
      ((dl.batches.map (batchMeanLoss lossFn m)).sum : ℚ) /
        dl.batches.length :=
  ⟨test_accuracy_eq lossFn dl m hk, test_avgLoss_eq lossFn dl m⟩

/-- Witness for C5 at a one-sample dataset with batch size 64. -/
theorem test_metrics_witness :
    0 < (DataLoader.mk [(zeroImage, 0)] 64).batch_size ∧
    ((test (fun _ _ => 0) (DataLoader.mk [(zeroImage, 0)] 64)
        zeroNetwork).1.accuracy =
      (((DataLoader.mk [(zeroImage, 0)] 64).dataset.filter
          (isCorrect zeroNetwork)).length : ℚ) /
        (DataLoader.mk [(zeroImage, 0)] 64).dataset.length ∧
     (test (fun _ _ => 0) (DataLoader.mk [(zeroImage, 0)] 64)
        zeroNetwork).1.avgLoss =
      (((DataLoader.mk [(zeroImage, 0)] 64).batches.map
          (batchMeanLoss (fun _ _ => 0) zeroNetwork)).sum : ℚ) /
        (DataLoader.mk [(zeroImage, 0)] 64).batches.length) :=
  ⟨by decide,
   test_metrics (fun _ _ => 0) (DataLoader.mk [(zeroImage, 0)] 64)
     zeroNetwork (by decide)⟩

lemma getD_zipWith {α β γ : Type} (f : α → β → γ) :
    ∀ (a : List α) (b : List β) (i : Nat) (da : α) (db : β) (dg : γ),
      i < a.length → i < b.length →
      (List.zipWith f a b).getD i dg = f (a.getD i da) (b.getD i db) := by
  intro a
  induction a with
  | nil => intro b i da db dg h1 _; simp at h1
  | cons x xs ih =>
      intro b i da db dg h1 h2
      cases b with
      | nil => simp at h2
      | cons y ys =>
          cases i with
          | zero => simp
          | succ n =>
              simp only [List.zipWith_cons_cons, List.getD_cons_succ]
              exact ih ys n da db dg (by simpa using h1) (by simpa using h2)

lemma getD_map {α β : Type} (f : α → β) :
    ∀ (l : List α) (i : Nat) (da : α) (db : β), i < l.length →
      (l.map f).getD i db = f (l.getD i da) := by
  intro l
  induction l with
  | nil => intro i da db h; simp at h
  | cons x xs ih =>
      intro i da db h
      cases i with
      | zero => simp
      | succ n =>
          simp only [List.map_cons, List.getD_cons_succ]
          exact ih n da db (by simpa using h)

/-- Two layer-shaped tensors have the same shape: equal row-length lists
and equal bias lengths. -/
def Linear.shapeEq (a b : Linear) : Prop :=
  a.weight.map List.length = b.weight.map List.length ∧
    a.bias.length = b.bias.length

/-- The gradients match the shapes of the model parameters. -/
def gradsMatch (g : ParamGrads) (m : NeuralNetwork) : Prop :=
  g.g1.shapeEq m.l1 ∧ g.g2.shapeEq m.l2 ∧ g.g3.shapeEq m.l3 ∧
    g.g4.shapeEq m.l4

/-- The SGD update of one layer the way the claim words it: the shapes
are preserved and every weight and bias entry p becomes
p - lr * (gradient of the batch loss at p).  This comparator definition
is written from the claim, to be compared with the notebook update. -/
def Linear.specUpdated (lr : ℚ) (p g p2 : Linear) : Prop :=
  p2.weight.length = p.weight.length ∧
  p2.bias.length = p.bias.length ∧
  (∀ i j, i < p.weight.length → j < (p.weight.getD i []).length →
    (p2.weight.getD i []).getD j 0 =
      (p.weight.getD i []).getD j 0 - lr * ((g.weight.getD i []).getD j 0)) ∧
  (∀ i, i < p.bias.length →
    p2.bias.getD i 0 = p.bias.getD i 0 - lr * g.bias.getD i 0)

lemma Linear.shapeEq.weight_length {a b : Linear} (h : a.shapeEq b) :
    a.weight.length = b.weight.length := by
  have := congrArg List.length h.1
  simpa using this

lemma Linear.shapeEq.row_length {a b : Linear} (h : a.shapeEq b)
    (i : Nat) (hi : i < b.weight.length) :
    (a.weight.getD i []).length = (b.weight.getD i []).length := by
  have ha : (a.weight.map List.length).getD i 0 =
      (a.weight.getD i []).length :=
    getD_map List.length a.weight i [] 0 (h.weight_length ▸ hi)
  have hb : (b.weight.map List.length).getD i 0 =
      (b.weight.getD i []).length :=
    getD_map List.length b.weight i [] 0 hi
  rw [← ha, ← hb, h.1]

lemma sgdStep_after_zero (lr : ℚ) (p g : Linear) (h : g.shapeEq p) :
    Linear.specUpdated lr p g (Linear.sgdStep lr p (p.zeroLike.addG g)) := by
  have hwl : g.weight.length = p.weight.length := h.weight_length
  have hbl : g.bias.length = p.bias.length := h.2
  have haddw : (p.zeroLike.addG g).weight.length = p.weight.length := by
    simp [Linear.addG, Linear.zeroLike, hwl]
  have haddb : (p.zeroLike.addG g).bias.length = p.bias.length := by
    simp [Linear.addG, Linear.zeroLike, hbl]
  refine ⟨?_, ?_, ?_, ?_⟩
  · simp [Linear.sgdStep, haddw]
  · simp [Linear.sgdStep, haddb]
  · intro i j hi hj
    have hgi : (g.weight.getD i []).length = (p.weight.getD i []).length :=
      h.row_length i hi
    have hzw : p.zeroLike.weight.length = p.weight.length := by
      simp [Linear.zeroLike]
    have hrow : (Linear.sgdStep lr p (p.zeroLike.addG g)).weight.getD i [] =
        List.zipWith (fun a d => a - lr * d) (p.weight.getD i [])
          ((p.zeroLike.addG g).weight.getD i []) := by
      exact getD_zipWith _ p.weight (p.zeroLike.addG g).weight i [] [] []
        hi (haddw ▸ hi)
    have haddrow : (p.zeroLike.addG g).weight.getD i [] =
        List.zipWith (fun x y => x + y) (p.zeroLike.weight.getD i [])
          (g.weight.getD i []) := by
      exact getD_zipWith _ p.zeroLike.weight g.weight i [] [] []
        (hzw ▸ hi) (hwl ▸ hi)
    have hzrow : p.zeroLike.weight.getD i [] =
        (p.weight.getD i []).map (fun _ => (0 : ℚ)) := by
      exact getD_map _ p.weight i [] [] hi
    rw [hrow]
    have hj2 : j < ((p.zeroLike.addG g).weight.getD i []).length := by
      rw [haddrow, hzrow]
      simp only [List.length_zipWith, List.length_map]
      rw [hgi]
      simpa using hj
    rw [getD_zipWith _ _ _ j 0 0 0 hj hj2, haddrow, hzrow]
    have hj3 : j < ((p.weight.getD i []).map (fun _ => (0 : ℚ))).length := by
      simpa using hj
    rw [getD_zipWith _ _ _ j 0 0 0 hj3 (by rw [hgi]; exact hj)]
    rw [getD_map (fun _ => (0 : ℚ)) _ j 0 0 hj]
    ring
  · intro i hi
    have hrow : (Linear.sgdStep lr p (p.zeroLike.addG g)).bias.getD i 0 =
        p.bias.getD i 0 - lr * (p.zeroLike.addG g).bias.getD i 0 := by
      exact getD_zipWith _ p.bias (p.zeroLike.addG g).bias i 0 0 0
        hi (haddb ▸ hi)
    have hzb : p.zeroLike.bias.length = p.bias.length := by
      simp [Linear.zeroLike]
    have haddrow : (p.zeroLike.addG g).bias.getD i 0 =
        p.zeroLike.bias.getD i 0 + g.bias.getD i 0 := by
      exact getD_zipWith _ p.zeroLike.bias g.bias i 0 0 0
        (hzb ▸ hi) (hbl ▸ hi)
    have hzrow : p.zeroLike.bias.getD i 0 = 0 := by
      have h0 := getD_map (fun _ => (0 : ℚ)) p.bias i 0 0 hi
      exact h0
    rw [hrow, haddrow, hzrow]
    ring

/-- Claim C3: for every training batch, the body of train backpropagates
the batch loss and the optimizer step updates every model parameter p to
p - 1e-3 times the gradient of the batch loss at p, after which all
gradients are reset to zero before the next batch. -/
theorem trainStep_is_plain_sgd (gradFn : GradFn) (s : RunState) (b : Batch)
    (hz : s.opt.grads = s.model.zeroGrads) (hlr : s.opt.lr = 1 / 1000)
    (hg : gradsMatch (gradFn s.model b) s.model) :
    Linear.specUpdated (1 / 1000) s.model.l1 (gradFn s.model b).g1
      ((trainStep gradFn s b).model.l1) ∧
    Linear.specUpdated (1 / 1000) s.model.l2 (gradFn s.model b).g2
      ((trainStep gradFn s b).model.l2) ∧
    Linear.specUpdated (1 / 1000) s.model.l3 (gradFn s.model b).g3
      ((trainStep gradFn s b).model.l3) ∧
    Linear.specUpdated (1 / 1000) s.model.l4 (gradFn s.model b).g4
      ((trainStep gradFn s b).model.l4) ∧
    (trainStep gradFn s b).opt.grads =
      (trainStep gradFn s b).model.zeroGrads := by
  refine ⟨?_, ?_, ?_, ?_, rfl⟩
  · have he : (trainStep gradFn s b).model.l1 =
        Linear.sgdStep s.opt.lr s.model.l1
          ((s.opt.grads.add (gradFn s.model b)).g1) := rfl
    rw [he, hz, hlr]
    exact sgdStep_after_zero _ _ _ hg.1
  · have he : (trainStep gradFn s b).model.l2 =
        Linear.sgdStep s.opt.lr s.model.l2
          ((s.opt.grads.add (gradFn s.model b)).g2) := rfl
    rw [he, hz, hlr]
    exact sgdStep_after_zero _ _ _ hg.2.1
  · have he : (trainStep gradFn s b).model.l3 =
        Linear.sgdStep s.opt.lr s.model.l3
          ((s.opt.grads.add (gradFn s.model b)).g3) := rfl
    rw [he, hz, hlr]
    exact sgdStep_after_zero _ _ _ hg.2.2.1
  · have he : (trainStep gradFn s b).model.l4 =
        Linear.sgdStep s.opt.lr s.model.l4
          ((s.opt.grads.add (gradFn s.model b)).g4) := rfl
    rw [he, hz, hlr]
    exact sgdStep_after_zero _ _ _ hg.2.2.2

/-- A tiny concrete model used by witnesses: every layer is a one by one
weight with a single bias entry. -/
def smallModel : NeuralNetwork :=
  ⟨⟨[[1]], [2]⟩, ⟨[[3]], [4]⟩, ⟨[[5]], [6]⟩, ⟨[[7]], [8]⟩, true⟩

/-- A concrete gradient function used by witnesses: gradients all zero,
shaped like the current model. -/
def constGradFn : GradFn := fun m _ => m.zeroGrads

/-- Witness for C3 at the tiny model, the empty batch and the gradient
function returning zero gradients. -/
theorem trainStep_is_plain_sgd_witness :
    (initState smallModel).opt.grads =
      (initState smallModel).model.zeroGrads ∧
    (initState smallModel).opt.lr = 1 / 1000 ∧
    gradsMatch (constGradFn (initState smallModel).model [])
      (initState smallModel).model ∧
    (Linear.specUpdated (1 / 1000) (initState smallModel).model.l1
      (constGradFn (initState smallModel).model []).g1
      ((trainStep constGradFn (initState smallModel) []).model.l1) ∧
     Linear.specUpdated (1 / 1000) (initState smallModel).model.l2
      (constGradFn (initState smallModel).model []).g2
      ((trainStep constGradFn (initState smallModel) []).model.l2) ∧
     Linear.specUpdated (1 / 1000) (initState smallModel).model.l3
      (constGradFn (initState smallModel).model []).g3
      ((trainStep constGradFn (initState smallModel) []).model.l3) ∧
     Linear.specUpdated (1 / 1000) (initState smallModel).model.l4
      (constGradFn (initState smallModel).model []).g4
      ((trainStep constGradFn (initState smallModel) []).model.l4) ∧
     (trainStep constGradFn (initState smallModel) []).opt.grads =
      (trainStep constGradFn (initState smallModel) []).model.zeroGrads) :=
  ⟨rfl, rfl, ⟨⟨rfl, rfl⟩, ⟨rfl, rfl⟩, ⟨rfl, rfl⟩, ⟨rfl, rfl⟩⟩,
   trainStep_is_plain_sgd constGradFn (initState smallModel) [] rfl rfl
     ⟨⟨rfl, rfl⟩, ⟨rfl, rfl⟩, ⟨rfl, rfl⟩, ⟨rfl, rfl⟩⟩⟩

/-- Did a run event perform an optimizer step? -/
def RunEvent.isStep : RunEvent → Bool
  | .step _ _ => true
  | .testPass => false

lemma trainFold_log (gradFn : GradFn) :
    ∀ (batches : List Batch) (s : RunState),
      ((batches.foldl (trainStep gradFn) s).log =
        s.log ++ batches.map (RunEvent.step s.opt.lr)) ∧
      (batches.foldl (trainStep gradFn) s).opt.lr = s.opt.lr := by
  intro batches
  induction batches with
  | nil => intro s; simp
  | cons b bs ih =>
      intro s
      rw [List.foldl_cons]
      obtain ⟨hl, hr⟩ := ih (trainStep gradFn s b)
      constructor
      · rw [hl]
        have h1 : (trainStep gradFn s b).log =
            s.log ++ [RunEvent.step s.opt.lr b] := rfl
        have h2 : (trainStep gradFn s b).opt.lr = s.opt.lr := rfl
        rw [h1, h2]
        simp
      · rw [hr]
        rfl

lemma train_log (gradFn : GradFn) (dl : DataLoader) (s : RunState) :
    ((train gradFn dl s).log =
      s.log ++ dl.batches.map (RunEvent.step s.opt.lr)) ∧
    (train gradFn dl s).opt.lr = s.opt.lr := by
  have h := trainFold_log gradFn dl.batches
    { s with model := { s.model with training := true } }
  exact h

lemma epochLoop_log (gradFn : GradFn) (lossFn : LossFn)
    (trainDL testDL : DataLoader) :
    ∀ (n : Nat) (s : RunState),
      (((List.range n).foldl
          (fun st _ => testPhase lossFn testDL (train gradFn trainDL st))
          s).log =
        s.log ++ (List.replicate n
          (trainDL.batches.map (RunEvent.step s.opt.lr) ++
            [RunEvent.testPass])).flatten) ∧
      ((List.range n).foldl
          (fun st _ => testPhase lossFn testDL (train gradFn trainDL st))
          s).opt.lr = s.opt.lr := by
  have hstep : ∀ st : RunState,
      ((testPhase lossFn testDL (train gradFn trainDL st)).log =
        st.log ++ (trainDL.batches.map (RunEvent.step st.opt.lr) ++
          [RunEvent.testPass])) ∧
      (testPhase lossFn testDL (train gradFn trainDL st)).opt.lr =
        st.opt.lr := by
    intro st
    obtain ⟨h1, h2⟩ := train_log gradFn trainDL st
    constructor
    · have h3 : (testPhase lossFn testDL (train gradFn trainDL st)).log =
          (train gradFn trainDL st).log ++ [RunEvent.testPass] := rfl
      rw [h3, h1, List.append_assoc]
    · have h3 : (testPhase lossFn testDL (train gradFn trainDL st)).opt.lr =
          (train gradFn trainDL st).opt.lr := rfl
      rw [h3, h2]
  intro n
  induction n with
  | zero => intro s; simp
  | succ n ih =>
      intro s
      rw [List.range_succ, List.foldl_append]
      obtain ⟨hl, hr⟩ := ih s
      obtain ⟨g1, g2⟩ := hstep ((List.range n).foldl
        (fun st _ => testPhase lossFn testDL (train gradFn trainDL st)) s)
      constructor
      · simp only [List.foldl_cons, List.foldl_nil]
        rw [g1, hl, hr, List.replicate_succ']
        simp [List.flatten_append, List.append_assoc]
      · simp only [List.foldl_cons, List.foldl_nil]
        rw [g2, hr]

/-- The full event log of the 20 epoch notebook run. -/
lemma runTraining_log (gradFn : GradFn) (lossFn : LossFn)
    (trainDL testDL : DataLoader) (m0 : NeuralNetwork) :
    (runTraining gradFn lossFn trainDL testDL (initState m0)).log =
      (List.replicate epochs
        (trainDL.batches.map (RunEvent.step (1 / 1000)) ++
          [RunEvent.testPass])).flatten := by
  have h := (epochLoop_log gradFn lossFn trainDL testDL epochs
    (initState m0)).1
  exact h

lemma filter_isStep_map (lr : ℚ) :
    ∀ l : List Batch,
      (l.map (RunEvent.step lr)).filter RunEvent.isStep =
        l.map (RunEvent.step lr) := by
  intro l
  induction l with
  | nil => rfl
  | cons b bs ih => simp [RunEvent.isStep, ih]

/-- Claim C4: the training loop is a plain nested loop that terminates:
the outer loop runs exactly 20 epochs, the inner loop visits every train
batch exactly once in order followed by one test pass per epoch, with no
early exit, and the whole run performs exactly 20 times the number of
train batches optimizer steps. -/
theorem training_loop_trace (gradFn : GradFn) (lossFn : LossFn)
    (trainDL testDL : DataLoader) (m0 : NeuralNetwork) :
    (runTraining gradFn lossFn trainDL testDL (initState m0)).log =
      (List.replicate 20
        (trainDL.batches.map (RunEvent.step (1 / 1000)) ++
          [RunEvent.testPass])).flatten ∧
    ((runTraining gradFn lossFn trainDL testDL
        (initState m0)).log.filter RunEvent.isStep).length =
      20 * trainDL.batches.length := by
  have hlog := runTraining_log gradFn lossFn trainDL testDL m0
  refine ⟨hlog, ?_⟩
  rw [hlog]
  rw [length_filter_flatten]
  simp only [List.map_replicate, List.filter_append,
    filter_isStep_map (1 / 1000) trainDL.batches]
  have hT : ([RunEvent.testPass].filter RunEvent.isStep) = [] := rfl
  rw [hT]
  simp only [List.append_nil, List.length_map, List.sum_replicate,
    smul_eq_mul, epochs]

/-- Claim C6: every optimizer step of the whole 20 epoch run uses the
constant learning rate 1e-3; nothing ever changes the learning rate or
the update rule. -/
theorem learning_rate_constant (gradFn : GradFn) (lossFn : LossFn)
    (trainDL testDL : DataLoader) (m0 : NeuralNetwork) (lr : ℚ) (b : Batch)
    (h : RunEvent.step lr b ∈
      (runTraining gradFn lossFn trainDL testDL (initState m0)).log) :
    lr = 1 / 1000 := by
  rw [runTraining_log gradFn lossFn trainDL testDL m0] at h
  rcases List.mem_flatten.1 h with ⟨E, hE, hmem⟩
  rw [List.eq_of_mem_replicate hE] at hmem
  rcases List.mem_append.1 hmem with h1 | h1
  · rcases List.mem_map.1 h1 with ⟨b2, _, heq⟩
    injection heq with e1 e2
    exact e1.symm
  · simp at h1

/-- A tiny one-sample train loader used by witnesses. -/
def smallTrainDL : DataLoader := ⟨[([[1]], 0)], 64⟩

/-- An empty test loader used by witnesses. -/
def emptyTestDL : DataLoader := ⟨[], 64⟩

/-- Witness for C6: the single-batch step event of a concrete run is in
the log and its learning rate is 1e-3. -/
theorem learning_rate_constant_witness :
    RunEvent.step (1 / 1000) [([[1]], 0)] ∈
      (runTraining constGradFn (fun _ _ => 0) smallTrainDL emptyTestDL
        (initState smallModel)).log ∧
    (1 / 1000 : ℚ) = 1 / 1000 := by
  have hmem : RunEvent.step (1 / 1000) [([[1]], 0)] ∈
      (runTraining constGradFn (fun _ _ => 0) smallTrainDL emptyTestDL
        (initState smallModel)).log := by
    rw [runTraining_log]
    have hbatches : smallTrainDL.batches = [[([[1]], 0)]] := rfl
    rw [hbatches]
    refine List.mem_flatten.2 ⟨_, List.mem_replicate.2 ⟨?_, rfl⟩, ?_⟩
    · decide
    · simp
  exact ⟨hmem,
    learning_rate_constant constGradFn (fun _ _ => 0) smallTrainDL
      emptyTestDL smallModel (1 / 1000) [([[1]], 0)] hmem⟩

lemma chunks_replicate_append {α : Type} (k : Nat) (hk : 0 < k) (a : α) :
    ∀ (m : Nat) (rest : List α),
      chunks k (List.replicate (m * k) a ++ rest) =
        List.replicate m (List.replicate k a) ++ chunks k rest := by
  intro m
  induction m with
  | zero => intro rest; simp
  | succ n ih =>
      intro rest
      have hsplit : List.replicate ((n + 1) * k) a =
          List.replicate k a ++ List.replicate (n * k) a := by
        rw [← List.replicate_add]
        congr 1
        ring
      rw [hsplit, List.append_assoc]
      have hne : List.replicate k a ++ (List.replicate (n * k) a ++ rest)
          ≠ [] := by
        intro hcontra
        have hnil : List.replicate k a = [] :=
          (List.append_eq_nil.1 hcontra).1
        have hlen := congrArg List.length hnil
        simp at hlen
        omega
      rw [chunks_cons k hk _ hne]
      have hrep : (List.replicate k a).length = k := by simp
      rw [List.take_left' hrep, List.drop_left' hrep, ih]
      simp [List.replicate_succ]

lemma chunks_of_short {α : Type} (k : Nat) (hk : 0 < k) (l : List α)
    (h0 : l ≠ []) (h : l.length ≤ k) : chunks k l = [l] := by
  rw [chunks_cons k hk l h0, List.take_of_length_le h,
    List.drop_eq_nil_of_le h, chunks_nil]

/-- Claim C9: with batch size 64 the final batch of each loader is
partial: over the 10000-sample test set the batches are 156 of size 64
and one of size 16, over the 60000-sample train set 937 of size 64 and
one of size 32; consequently, whenever the mean loss of the last test
batch differs from the average of the full-batch mean losses, the
average loss printed by test (the unweighted mean of per-batch mean
losses) differs from the true per-sample mean loss. -/
theorem partial_final_batches (lossFn : LossFn) (m : NeuralNetwork)
    (trainData testData : List (Image × Label))
    (full : List Batch) (lastB : Batch)
    (htrain : trainData.length = 60000)
    (htest : testData.length = 10000)
    (hb : chunks 64 testData = full ++ [lastB])
    (hne : batchMeanLoss lossFn m lastB ≠
      (full.map (batchMeanLoss lossFn m)).sum / 156) :
    (10000 : Nat) % 64 = 16 ∧
    (60000 : Nat) % 64 = 32 ∧
    (chunks 64 testData).map List.length =
      List.replicate 156 64 ++ [16] ∧
    (chunks 64 trainData).map List.length =
      List.replicate 937 64 ++ [32] ∧
    (test lossFn (DataLoader.mk testData 64) m).1.avgLoss ≠
      sampleLossSum lossFn m testData / (testData.length : ℚ) := by
  have h64 : (0 : Nat) < 64 := by norm_num
  have hmapTest : (chunks 64 testData).map List.length =
      List.replicate 156 64 ++ [16] := by
    have e1 : (10000 : Nat) / 64 = 156 := by norm_num
    have e2 : (10000 : Nat) % 64 = 16 := by norm_num
    rw [chunks_map_length 64 h64 testData, htest, e1, e2]
    norm_num
  have hmapTrain : (chunks 64 trainData).map List.length =
      List.replicate 937 64 ++ [32] := by
    have e1 : (60000 : Nat) / 64 = 937 := by norm_num
    have e2 : (60000 : Nat) % 64 = 32 := by norm_num
    rw [chunks_map_length 64 h64 trainData, htrain, e1, e2]
    norm_num
  refine ⟨by norm_num, by norm_num, hmapTest, hmapTrain, ?_⟩
  have hmap2 : full.map List.length ++ [lastB.length] =
      List.replicate 156 64 ++ [16] := by
    have h0 := hmapTest
    rw [hb, List.map_append] at h0
    simpa using h0
  obtain ⟨hfull_eq, hlast_eq⟩ := List.append_inj' hmap2 (by simp)
  have hlastlen : lastB.length = 16 := by simpa using hlast_eq
  have hfull_len : full.length = 156 := by
    have := congrArg List.length hfull_eq
    simpa using this
  have hfull_all : ∀ c ∈ full, c.length = 64 := by
    intro c hc
    have hmem : c.length ∈ full.map List.length :=
      List.mem_map_of_mem _ hc
    rw [hfull_eq] at hmem
    exact List.eq_of_mem_replicate hmem
  have havg := test_avgLoss_eq lossFn (DataLoader.mk testData 64) m
  have hbb : (DataLoader.mk testData 64).batches = full ++ [lastB] := by
    simp only [DataLoader.batches]
    exact hb
  rw [hbb] at havg
  have havg2 : (test lossFn (DataLoader.mk testData 64) m).1.avgLoss =
      ((full.map (batchMeanLoss lossFn m)).sum +
        batchMeanLoss lossFn m lastB) / 157 := by
    rw [havg, List.map_append, List.sum_append]
    simp [hfull_len]
  have hflat : (full ++ [lastB]).flatten = testData := by
    rw [← hb]
    exact chunks_flatten 64 h64 testData
  have hsum : sampleLossSum lossFn m testData =
      64 * (full.map (batchMeanLoss lossFn m)).sum +
        16 * batchMeanLoss lossFn m lastB := by
    rw [← hflat, sampleLossSum_flatten, List.map_append, List.sum_append]
    have hf : ∀ c ∈ full, sampleLossSum lossFn m c =
        64 * batchMeanLoss lossFn m c := by
      intro c hc
      have hc64 : c.length = 64 := hfull_all c hc
      rw [batchMeanLoss, hc64]
      field_simp
    rw [sum_map_eq_mul full _ _ 64 hf]
    have hl16 : sampleLossSum lossFn m lastB =
        16 * batchMeanLoss lossFn m lastB := by
      rw [batchMeanLoss, hlastlen]
      field_simp
    simp [hl16]
  intro hcontra
  apply hne
  rw [havg2, hsum, htest] at hcontra
  have h157 : ((157 : ℚ)) ≠ 0 := by norm_num
  have hcast : (((10000 : Nat) : ℚ)) = 10000 := by norm_num
  rw [hcast] at hcontra
  field_simp at hcontra ⊢
  linarith

/-- A dummy sample with label 0 used by the C9 witness. -/
def wSample0 : Image × Label := ([], 0)

/-- A dummy sample with label 1 used by the C9 witness. -/
def wSample1 : Image × Label := ([], 1)

/-- A concrete 10000-sample test dataset: 9984 label-0 samples followed
by 16 label-1 samples. -/
def wTestData : List (Image × Label) :=
  List.replicate 9984 wSample0 ++ List.replicate 16 wSample1

/-- A concrete 60000-sample train dataset. -/
def wTrainData : List (Image × Label) := List.replicate 60000 wSample0

/-- The 156 full batches of the C9 witness dataset. -/
def wFull : List Batch := List.replicate 156 (List.replicate 64 wSample0)

/-- The 16-sample final batch of the C9 witness dataset. -/
def wLast : Batch := List.replicate 16 wSample1

/-- A concrete loss function for the C9 witness: the label value. -/
def wLoss : LossFn := fun _ y => (y : ℚ)

lemma wTestData_chunks : chunks 64 wTestData = wFull ++ [wLast] := by
  have h9984 : List.replicate 9984 wSample0 =
      List.replicate (156 * 64) wSample0 := by norm_num
  rw [wTestData, h9984,
    chunks_replicate_append 64 (by norm_num) wSample0 156
      (List.replicate 16 wSample1)]
  rw [chunks_of_short 64 (by norm_num) _ (by simp) (by simp)]
  rfl

lemma wLast_mean : batchMeanLoss wLoss smallModel wLast = 1 := by
  simp only [batchMeanLoss, sampleLossSum, wLast, wLoss, wSample1,
    List.map_replicate, List.sum_replicate, List.length_replicate]
  norm_num

lemma wFull_means : (wFull.map (batchMeanLoss wLoss smallModel)).sum = 0 := by
  have hone : batchMeanLoss wLoss smallModel (List.replicate 64 wSample0)
      = 0 := by
    simp only [batchMeanLoss, sampleLossSum, wLoss, wSample0,
      List.map_replicate, List.sum_replicate, List.length_replicate]
    norm_num
  simp only [wFull, List.map_replicate, hone, List.sum_replicate]
  norm_num

/-- Witness for C9 at a concrete 60000-sample train set and a concrete
10000-sample test set whose final 16 samples have loss 1 while all other
samples have loss 0. -/
theorem partial_final_batches_witness :
    wTrainData.length = 60000 ∧
    wTestData.length = 10000 ∧
    chunks 64 wTestData = wFull ++ [wLast] ∧
    batchMeanLoss wLoss smallModel wLast ≠
      (wFull.map (batchMeanLoss wLoss smallModel)).sum / 156 ∧
    ((10000 : Nat) % 64 = 16 ∧
     (60000 : Nat) % 64 = 32 ∧
     (chunks 64 wTestData).map List.length =
       List.replicate 156 64 ++ [16] ∧
     (chunks 64 wTrainData).map List.length =
       List.replicate 937 64 ++ [32] ∧
     (test wLoss (DataLoader.mk wTestData 64) smallModel).1.avgLoss ≠
       sampleLossSum wLoss smallModel wTestData /
         (wTestData.length : ℚ)) := by
  have h1 : wTrainData.length = 60000 := by
    rw [wTrainData, List.length_replicate]
  have h2 : wTestData.length = 10000 := by
    rw [wTestData, List.length_append, List.length_replicate,
      List.length_replicate]
  have h4 : batchMeanLoss wLoss smallModel wLast ≠
      (wFull.map (batchMeanLoss wLoss smallModel)).sum / 156 := by
    rw [wLast_mean, wFull_means]
    norm_num
  exact ⟨h1, h2, wTestData_chunks, h4,
    partial_final_batches wLoss smallModel wTrainData wTestData wFull wLast
      h1 h2 wTestData_chunks h4⟩

/-- Claim C2: the forward pass of NeuralNetwork first flattens the 28 by
28 input to a 784-entry vector and then applies exactly the four Linear
layers 784 to 1024, 1024 to 1024, 1024 to 512 and 512 to 10, with a ReLU
after each of the first three, returning a 10-entry logit vector. -/
theorem forward_is_four_layer_mlp (m : NeuralNetwork) (x : Image)
    (hm : m.wf) (hx : imageWf x) :
    (flattenImage x).length = 784 ∧
    m.forward x =
      m.l4.run (relu (m.l3.run (relu (m.l2.run
        (relu (m.l1.run (flattenImage x))))))) ∧
    (m.forward x).length = 10 := by
  refine ⟨length_flattenImage x hx, rfl, ?_⟩
  have h4 := hm.2.2.2
  have hfw : m.forward x =
      m.l4.run (relu (m.l3.run (relu (m.l2.run
        (relu (m.l1.run (flattenImage x))))))) := rfl
  rw [hfw, Linear.length_run, h4.1, h4.2.2, min_self]

/-- Witness for C2 at the all-zero network and the all-zero image. -/
theorem forward_is_four_layer_mlp_witness :
    zeroNetwork.wf ∧ imageWf zeroImage ∧
    ((flattenImage zeroImage).length = 784 ∧
     zeroNetwork.forward zeroImage =
       zeroNetwork.l4.run (relu (zeroNetwork.l3.run (relu (zeroNetwork.l2.run
         (relu (zeroNetwork.l1.run (flattenImage zeroImage))))))) ∧
     (zeroNetwork.forward zeroImage).length = 10) :=
  ⟨zeroNetwork_wf, zeroImage_wf,
   forward_is_four_layer_mlp zeroNetwork zeroImage zeroNetwork_wf zeroImage_wf⟩

/-- Claim C10: the class-name lookups of the prediction cell are in
bounds: the argmax of the 10 output logits is below the length of the
ten-element classes list, and for any FashionMNIST label y below 10 the
lookup of classes at y also succeeds, so the cell produces a pair. -/
theorem prediction_lookup_in_bounds (m : NeuralNetwork) (x : Image)
    (y : Label) (hm : m.wf) (hy : y < 10) :
    argmax (m.forward x) < classes.length ∧
    ((predictionCell m x y).1).isSome = true := by
  have h4 := hm.2.2.2
  have hfw : m.forward x =
      m.l4.run (relu (m.l3.run (relu (m.l2.run
        (relu (m.l1.run (flattenImage x))))))) := rfl
  have hlen : (m.forward x).length = 10 := by
    rw [hfw, Linear.length_run, h4.1, h4.2.2, min_self]
  have hne : m.forward x ≠ [] := by
    intro h
    rw [h] at hlen
    simp at hlen
  have harg : argmax (m.forward x) < 10 := hlen ▸ argmax_lt_length _ hne
  have hcl : classes.length = 10 := rfl
  have harg' : argmax (m.forward x) < classes.length := by rw [hcl]; exact harg
  have hy' : y < classes.length := by rw [hcl]; exact hy
  refine ⟨harg', ?_⟩
  have hm1 : ({ m with training := false } : NeuralNetwork).forward x
      = m.forward x := rfl
  obtain ⟨s1, e1⟩ : ∃ s, pyIndex classes (argmax (m.forward x)) = some s :=
    ⟨_, List.getElem?_eq_getElem harg'⟩
  obtain ⟨s2, e2⟩ : ∃ s, pyIndex classes y = some s :=
    ⟨_, List.getElem?_eq_getElem hy'⟩
  simp only [predictionCell, hm1, e1, e2, Option.bind_eq_bind,
    Option.some_bind, Option.pure_def, Option.isSome_some]

/-- Witness for C10 at the all-zero network, the all-zero image and
label 9. -/
theorem prediction_lookup_in_bounds_witness :
    zeroNetwork.wf ∧ 9 < 10 ∧
    (argmax (zeroNetwork.forward zeroImage) < classes.length ∧
     ((predictionCell zeroNetwork zeroImage 9).1).isSome = true) :=
  ⟨zeroNetwork_wf, by decide,
   prediction_lookup_in_bounds zeroNetwork zeroImage 9 zeroNetwork_wf
     (by decide)⟩

/-- Claim C1: saving the state dictionary to the model file and loading
it back into a freshly constructed NeuralNetwork restores every weight
and bias of the four Linear layers exactly, so the restored model agrees
with the trained model on every input. -/
theorem save_load_roundtrip (m fresh : NeuralNetwork) (fs : FileSystem) :
    torch_load modelPath ((saveCell m fs).1) = some m.state_dict ∧
    ∃ m2, fresh.load_state_dict m.state_dict = some m2 ∧
      m2.l1 = m.l1 ∧ m2.l2 = m.l2 ∧ m2.l3 = m.l3 ∧ m2.l4 = m.l4 ∧
      ∀ x : Image, m2.forward x = m.forward x := by
  constructor
  · simp [saveCell, torch_save, torch_load, List.lookup]
  · refine ⟨{ l1 := m.l1
              l2 := m.l2
              l3 := m.l3
              l4 := m.l4
              training := fresh.training }, ?_, rfl, rfl, rfl, rfl,
      fun x => rfl⟩
    rfl

/-- Claim C7: the save cell performs exactly one write, of exactly the
state dictionary (the weights and biases of the four layers, nothing
else, in particular no optimizer state), to the single file named dot
backslash model, and leaves the in-memory model unchanged. -/
theorem save_single_write (m : NeuralNetwork) (fs : FileSystem) :
    (saveCell m fs).1 = (modelPath, m.state_dict) :: fs ∧
    (saveCell m fs).1.length = fs.length + 1 ∧
    modelPath = ".\\model" ∧
    (saveCell m fs).2 = m ∧
    m.state_dict.map Prod.fst =
      ["linear_relu_stack.0.weight", "linear_relu_stack.0.bias",
       "linear_relu_stack.2.weight", "linear_relu_stack.2.bias",
       "linear_relu_stack.4.weight", "linear_relu_stack.4.bias",
       "linear_relu_stack.6.weight", "linear_relu_stack.6.bias"] ∧
    m.state_dict.map Prod.snd =
      [.mat m.l1.weight, .vec m.l1.bias, .mat m.l2.weight, .vec m.l2.bias,
       .mat m.l3.weight, .vec m.l3.bias, .mat m.l4.weight, .vec m.l4.bias] :=
  ⟨rfl, rfl, rfl, rfl, rfl, rfl⟩

/-- Claim C8: evaluation never modifies the learned state: the test phase
leaves the optimizer state untouched and every parameter of the four
Linear layers identical, and so does the prediction cell. -/
theorem evaluation_preserves_state (lossFn : LossFn) (dl : DataLoader)
    (s : RunState) (m : NeuralNetwork) (x : Image) (y : Label) :
    ((testPhase lossFn dl s).opt = s.opt ∧
     (testPhase lossFn dl s).model.l1 = s.model.l1 ∧
     (testPhase lossFn dl s).model.l2 = s.model.l2 ∧
     (testPhase lossFn dl s).model.l3 = s.model.l3 ∧
     (testPhase lossFn dl s).model.l4 = s.model.l4) ∧
    ((test lossFn dl m).2.l1 = m.l1 ∧ (test lossFn dl m).2.l2 = m.l2 ∧
     (test lossFn dl m).2.l3 = m.l3 ∧ (test lossFn dl m).2.l4 = m.l4) ∧
    ((predictionCell m x y).2.l1 = m.l1 ∧
     (predictionCell m x y).2.l2 = m.l2 ∧
     (predictionCell m x y).2.l3 = m.l3 ∧
     (predictionCell m x y).2.l4 = m.l4) :=
  ⟨⟨rfl, rfl, rfl, rfl, rfl⟩, ⟨rfl, rfl, rfl, rfl⟩, ⟨rfl, rfl, rfl, rfl⟩⟩

end Quickstart
